import Mathlib

/-!
Shallow embedding of the table-interaction helpers of the `playwright-ts`
repository (`src/helperUtils/WebTableHelper.ts`, `src/pages/commonUserActionsPage.ts`,
`src/pages/webTablePage.ts`) together with proofs about their behaviour.

JavaScript strings are modelled as lists of characters; the rendered page is a
structure holding the texts the helpers read (header cells, rows with their
inner text and cell contents).  Asynchronous polling is modelled by a
fuel-indexed loop whose fuel is large enough to cover the wall-clock timeout.
-/

set_option autoImplicit false

namespace PlaywrightTs

/-- JavaScript strings, modelled as lists of characters. -/
abbrev JStr := List Char

/-- Transcription of a source string literal into the model. -/
def str (s : String) : JStr := s.data

/-- Model of JavaScript `String.prototype.trim`: drop whitespace from both ends. -/
def jsTrim (s : JStr) : JStr :=
  ((s.dropWhile Char.isWhitespace).reverse.dropWhile Char.isWhitespace).reverse

/-- Model of `String.prototype.toLowerCase` (ASCII case mapping, as `Char.toLower`). -/
def jsToLower (s : JStr) : JStr := s.map Char.toLower

/-- Does `b` occur at the start of `a`?  Helper for `jsIncludes`. -/
def jsStartsWith : JStr → JStr → Bool
  | _, [] => true
  | [], _ :: _ => false
  | a :: as, b :: bs => a == b && jsStartsWith as bs

/-- Model of `a.includes(b)`: `b` occurs contiguously somewhere inside `a`. -/
def jsIncludes : JStr → JStr → Bool
  | [], b => jsStartsWith [] b
  | a :: as, b => jsStartsWith (a :: as) b || jsIncludes as b

/-- The decimal rendering of a natural number, as a model string. -/
def natStr (n : Nat) : JStr := (Nat.repr n).data

/-- The `MatchMode` type of `WebTableHelper.ts`: `'exact' | 'partial'`
(the second constructor is named `part` here). -/
inductive MatchMode where
  | exact
  | part
deriving DecidableEq

/-- `WebTableHelper.normalize`: `text.toLowerCase().trim()`. -/
def normalize (text : JStr) : JStr := jsTrim (jsToLower text)

/-- `WebTableHelper.match`: exact mode compares normalized strings, the other
mode asks whether the normalized candidate `a` contains the normalized query `b`. -/
def matchText (a b : JStr) (mode : MatchMode) : Bool :=
  match mode with
  | .exact => normalize a == normalize b
  | .part => jsIncludes (normalize a) (normalize b)

/-- `Array.prototype.findIndex`: index of the first element satisfying `p`. -/
def findIdxP {α : Type} (p : α → Bool) : List α → Option Nat
  | [] => none
  | a :: l => if p a then some 0 else (findIdxP p l).map (· + 1)

/-- `l` has its first `p`-satisfying element at position `i`. -/
def FirstMatchAt {α : Type} (p : α → Bool) (l : List α) (i : Nat) : Prop :=
  ∃ l₁ a l₂, l = l₁ ++ a :: l₂ ∧ l₁.length = i ∧ p a = true ∧ ∀ x ∈ l₁, p x = false

theorem findIdxP_eq_some_iff {α : Type} {p : α → Bool} {l : List α} {i : Nat} :
    findIdxP p l = some i ↔ FirstMatchAt p l i := by
  induction l generalizing i with
  | nil =>
    constructor
    · intro h; simp [findIdxP] at h
    · rintro ⟨l₁, a, l₂, h, -⟩
      exact absurd h.symm (List.append_ne_nil_of_right_ne_nil l₁ (by simp))
  | cons b l ih =>
    by_cases hb : p b = true
    · constructor
      · intro h
        simp only [findIdxP, hb, if_true] at h
        obtain rfl : i = 0 := by injection h; omega
        exact ⟨[], b, l, by simp, rfl, hb, by simp⟩
      · rintro ⟨l₁, a, l₂, hl, hlen, hpa, hall⟩
        cases l₁ with
        | nil =>
          simp only [List.nil_append, List.cons.injEq] at hl
          simp only [List.length_nil] at hlen
          simp [findIdxP, hb, ← hlen]
        | cons c l₁ =>
          simp only [List.cons_append, List.cons.injEq] at hl
          have hc : p c = false := hall c (by simp)
          rw [← hl.1] at hc
          rw [hb] at hc
          exact absurd hc (by simp)
    · have hb' : p b = false := by
        cases h : p b
        · rfl
        · exact absurd h hb
      constructor
      · intro h
        simp only [findIdxP, hb', Bool.false_eq_true, if_false, Option.map_eq_some'] at h
        obtain ⟨j, hj, h1⟩ := h
        subst h1
        obtain ⟨l₁, a, l₂, hl, hlen, hpa, hall⟩ := ih.mp hj
        refine ⟨b :: l₁, a, l₂, by simp [hl], by simp [hlen], hpa, ?_⟩
        intro x hx
        rcases List.mem_cons.mp hx with rfl | hx
        · exact hb'
        · exact hall x hx
      · rintro ⟨l₁, a, l₂, hl, hlen, hpa, hall⟩
        cases l₁ with
        | nil =>
          simp only [List.nil_append, List.cons.injEq] at hl
          rw [← hl.1] at hpa
          exact absurd hpa (by simp [hb'])
        | cons c l₁ =>
          simp only [List.cons_append, List.cons.injEq] at hl
          have hfind : findIdxP p l = some l₁.length :=
            ih.mpr ⟨l₁, a, l₂, hl.2, rfl, hpa, fun x hx => hall x (by simp [hx])⟩
          simp only [findIdxP, hb', Bool.false_eq_true, if_false, hfind, Option.map_some']
          simp only [List.length_cons] at hlen
          simp [hlen]

theorem findIdxP_eq_none_iff {α : Type} {p : α → Bool} {l : List α} :
    findIdxP p l = none ↔ ∀ x ∈ l, p x = false := by
  induction l with
  | nil => simp [findIdxP]
  | cons b l ih =>
    by_cases hb : p b = true
    · simp [findIdxP, hb]
    · have hb' : p b = false := by
        cases h : p b
        · rfl
        · exact absurd h hb
      simp [findIdxP, hb', ih]

theorem isWhitespace_toLower (c : Char) :
    (Char.toLower c).isWhitespace = c.isWhitespace := by
  have hws : ∀ d : Char, 65 ≤ d.toNat → d.isWhitespace = false := by
    intro d hd
    simp only [Char.isWhitespace, Bool.or_eq_false_iff, decide_eq_false_iff_not]
    refine ⟨⟨⟨?_, ?_⟩, ?_⟩, ?_⟩ <;> (intro he; rw [he] at hd; exact absurd hd (by decide))
  by_cases h : c.toNat ≥ 65 ∧ c.toNat ≤ 90
  · have hvalid : (c.toNat + 32).isValidChar := Or.inl (by omega)
    have htn : (Char.ofNat (c.toNat + 32)).toNat = c.toNat + 32 := by
      rw [Char.ofNat, dif_pos hvalid]
      rfl
    have hlow : Char.toLower c = Char.ofNat (c.toNat + 32) := by
      simp [Char.toLower, h.1, h.2]
    rw [hlow, hws _ (by rw [htn]; omega), hws _ (by omega)]
  · have hlow : Char.toLower c = c := by
      simp only [Char.toLower]
      rw [if_neg h]
    rw [hlow]

theorem jsToLower_jsTrim_comm (s : JStr) :
    jsTrim (jsToLower s) = jsToLower (jsTrim s) := by
  have hmapdrop : ∀ l : JStr, List.dropWhile Char.isWhitespace (l.map Char.toLower)
      = (List.dropWhile Char.isWhitespace l).map Char.toLower := by
    intro l
    rw [List.dropWhile_map]
    have hpred : (Char.isWhitespace ∘ Char.toLower) = Char.isWhitespace := by
      funext c
      exact isWhitespace_toLower c
    rw [hpred]
  unfold jsTrim jsToLower
  rw [hmapdrop, ← List.map_reverse, hmapdrop, ← List.map_reverse]

theorem jsStartsWith_iff {a b : JStr} : jsStartsWith a b = true ↔ b <+: a := by
  induction b generalizing a with
  | nil =>
    cases a <;> simp [jsStartsWith]
  | cons c bs ih =>
    cases a with
    | nil =>
      simp only [jsStartsWith, Bool.false_eq_true, false_iff]
      rintro ⟨t, ht⟩
      exact absurd ht (by simp)
    | cons d as =>
      simp only [jsStartsWith, Bool.and_eq_true, beq_iff_eq, ih]
      constructor
      · rintro ⟨rfl, t, rfl⟩
        exact ⟨t, rfl⟩
      · rintro ⟨t, ht⟩
        simp only [List.cons_append, List.cons.injEq] at ht
        exact ⟨ht.1.symm, t, ht.2⟩

theorem jsIncludes_iff {a b : JStr} : jsIncludes a b = true ↔ b <:+: a := by
  induction a with
  | nil =>
    cases b with
    | nil => simp [jsIncludes, jsStartsWith]
    | cons c bs =>
      simp only [jsIncludes, jsStartsWith, Bool.false_eq_true, false_iff]
      rintro ⟨u, v, huv⟩
      exact absurd huv (by simp)
  | cons d as ih =>
    simp only [jsIncludes, Bool.or_eq_true, jsStartsWith_iff, ih]
    constructor
    · rintro (⟨t, ht⟩ | ⟨u, v, huv⟩)
      · exact ⟨[], t, by simp [ht]⟩
      · exact ⟨d :: u, v, by simp [huv]⟩
    · rintro ⟨u, v, huv⟩
      cases u with
      | nil =>
        exact Or.inl ⟨v, by simpa using huv⟩
      | cons e u =>
        simp only [List.cons_append, List.cons.injEq] at huv
        exact Or.inr ⟨u, v, huv.2⟩

theorem jsTrim_eq_rdrop (t : JStr) :
    jsTrim t = List.rdropWhile Char.isWhitespace (t.dropWhile Char.isWhitespace) := by
  simp [jsTrim, List.rdropWhile]

theorem dropWhile_eq_self_of_head (m : JStr)
    (hm : ∀ x, m.head? = some x → x.isWhitespace = false) :
    m.dropWhile Char.isWhitespace = m := by
  cases m with
  | nil => rfl
  | cons c cs => exact List.dropWhile_cons_of_neg (by simp [hm c rfl])

theorem jsTrim_idem (s : JStr) : jsTrim (jsTrim s) = jsTrim s := by
  rw [jsTrim_eq_rdrop s, jsTrim_eq_rdrop]
  have h1 : (List.rdropWhile Char.isWhitespace
        (s.dropWhile Char.isWhitespace)).dropWhile Char.isWhitespace
      = List.rdropWhile Char.isWhitespace (s.dropWhile Char.isWhitespace) := by
    apply dropWhile_eq_self_of_head
    intro x hx
    obtain ⟨t, ht⟩ := List.rdropWhile_prefix Char.isWhitespace (s.dropWhile Char.isWhitespace)
    have hd : (s.dropWhile Char.isWhitespace).head? = some x := by
      rw [← ht, List.head?_append, hx]
      rfl
    have := List.head?_dropWhile_not Char.isWhitespace s
    rw [hd] at this
    exact this
  rw [h1, List.rdropWhile_idempotent]

/-- One element with ARIA role `row`: its inner text and the text contents of
its `role=cell` descendants (`none` models a `null` `textContent`). -/
structure RowData where
  innerText : JStr
  cells : List (Option JStr)
deriving DecidableEq

/-- The rendered page as far as the helpers read it: the inner texts of
`table thead th`, the `role=row` elements, and unrelated page content the
helpers never look at. -/
structure PageState where
  headers : List JStr
  rows : List RowData
  misc : Nat
deriving DecidableEq

/-- `WebTableHelper.getHeaders`: reads `table thead th` inner texts and trims each. -/
def getHeaders (s : PageState) : List JStr := s.headers.map jsTrim

/-- The error text thrown by `WebTableHelper.getColumnIndex`. -/
def columnNotFoundMsg (columnName : JStr) (headers : List JStr) : JStr :=
  str "Column \x22" ++ columnName ++ str "\x22 not found.\nAvailable: " ++
    List.intercalate (str ", ") headers

/-- `WebTableHelper.getColumnIndex`: `findIndex` over the trimmed headers with
`match`, default mode `'partial'`; throws when no header matches. -/
def getColumnIndex (s : PageState) (columnName : JStr) (mode : MatchMode := .part) :
    Except JStr Nat :=
  match findIdxP (fun h => matchText h columnName mode) (getHeaders s) with
  | some i => .ok i
  | none => .error (columnNotFoundMsg columnName (getHeaders s))

/-- The row predicate of `WebTableHelper.getRow`: the row inner text is trimmed
and then compared with `match`. -/
def rowMatches (rowText : JStr) (mode : MatchMode) (r : RowData) : Bool :=
  matchText (jsTrim r.innerText) rowText mode

/-- The error text thrown by `WebTableHelper.getRow` after the timeout. -/
def rowNotFoundMsg (rowText : JStr) (timeout : Nat) (rows : List RowData) : JStr :=
  str "Row \x22" ++ rowText ++ str "\x22 not found after " ++ natStr timeout ++
    str "ms\nAvailable:\n" ++ List.intercalate (str "\n") (rows.map RowData.innerText)

/-- The polling loop of `WebTableHelper.getRow`.  Each iteration checks the
wall clock (`elapsed < timeout`), scans all rendered rows, and otherwise sleeps
a fixed 300ms (`page.waitForTimeout(300)`), which is the only thing advancing
the model clock.  `fuel` bounds the recursion; callers pass enough fuel that
the `0` case (which produces the same timeout error) is never reached.  The
second component records the sleep durations performed. -/
def getRowLoop (s : PageState) (rowText : JStr) (mode : MatchMode) (timeout : Nat) :
    Nat → Nat → Except JStr Nat × List Nat
  | 0, _ => (.error (rowNotFoundMsg rowText timeout s.rows), [])
  | fuel + 1, elapsed =>
    if elapsed < timeout then
      match findIdxP (rowMatches rowText mode) s.rows with
      | some i => (.ok i, [])
      | none =>
        let rest := getRowLoop s rowText mode timeout fuel (elapsed + 300)
        (rest.1, 300 :: rest.2)
    else
      (.error (rowNotFoundMsg rowText timeout s.rows), [])

/-- `WebTableHelper.getRow`: defaults are `timeout = 5000`, `mode = 'partial'`;
returns the index of the first matching `role=row` element together with the
list of sleeps performed. -/
def getRow (s : PageState) (rowText : JStr)
    (timeout? : Option Nat := none) (mode? : Option MatchMode := none) :
    Except JStr Nat × List Nat :=
  getRowLoop s rowText (mode?.getD .part) (timeout?.getD 5000) (timeout?.getD 5000) 0

/-- The failure raised by `await expect(cell).toBeVisible()` when the cell
locator resolves to nothing. -/
def cellNotVisibleMsg : JStr := str "expect(cell).toBeVisible() failed"

/-- The value expression of `getCellValue`:
`(await cell.textContent())?.trim() || null` — a missing text content gives
`null`, and so does a text that trims to the (falsy) empty string. -/
def textOrNull (cellText : Option JStr) : Option JStr :=
  match cellText with
  | none => none
  | some t => if jsTrim t = [] then none else some (jsTrim t)

/-- `WebTableHelper.getCellValue`: resolve the row (mode `matchMode ?? 'partial'`,
timeout forwarded), resolve the column (mode `columnMatchMode ?? 'partial'`),
take the cell at that column index inside the row, and return
`(await cell.textContent())?.trim() || null`. -/
def getCellValue (s : PageState) (rowText columnName : JStr)
    (timeout? : Option Nat := none) (matchMode? : Option MatchMode := none)
    (columnMatchMode? : Option MatchMode := none) : Except JStr (Option JStr) :=
  match (getRow s rowText timeout? (some (matchMode?.getD .part))).1 with
  | .error e => .error e
  | .ok ri =>
    match getColumnIndex s columnName (columnMatchMode?.getD .part) with
    | .error e => .error e
    | .ok ci =>
      match (s.rows[ri]?).bind (fun r => r.cells[ci]?) with
      | none => .error cellNotVisibleMsg
      | some cellText => .ok (textOrNull cellText)

/-- `WebTableHelper` as a class: its single (constructor-private) field is the
page handle. -/
structure WebTableHelper where
  page : Nat
deriving DecidableEq

/-- A `getCellValue` call as an operation on the helper object: it reads the
current page render and leaves the helper untouched (the source never assigns
to `this.page` nor to any other field). -/
def getCellValueS (h : WebTableHelper) (s : PageState) (rowText columnName : JStr) :
    Except JStr (Option JStr) × WebTableHelper :=
  (getCellValue s rowText columnName, h)

/-- Two successive `getCellValue` calls, the page re-rendering to `s₂` in
between; the helper object is threaded through. -/
def twoGetCellValueCalls (h : WebTableHelper) (s₁ s₂ : PageState)
    (r₁ c₁ r₂ c₂ : JStr) : Except JStr (Option JStr) × WebTableHelper :=
  let first := getCellValueS h s₁ r₁ c₁
  getCellValueS first.2 s₂ r₂ c₂

/-- The four locator strategies `CommonUserActionsPage.inputOnField` tries, in
source order. -/
inductive Strategy where
  | role
  | label
  | placeholder
  | xpath
deriving DecidableEq

/-- How many elements each locator strategy resolves to for a given field name
on the current page (the `count()` calls of `inputOnField`). -/
structure FieldLocatorCounts where
  roleCount : Nat
  labelCount : Nat
  placeholderCount : Nat
  xpathCount : Nat
deriving DecidableEq

/-- The error text thrown by `inputOnField` when every strategy matched zero
elements. -/
def inputFieldNotFoundMsg (fieldName : JStr) : JStr :=
  str "Input field \x22" ++ fieldName ++
    str "\x22 not found using role, label, placeholder, or relative XPath."

/-- `CommonUserActionsPage.inputOnField`: try role (exact name), label (exact),
placeholder (exact), then relative XPath; fill via the first strategy whose
locator count is positive and return.  The first component lists the
strategies whose counts were queried, the second is the fill that happened
(strategy and text) or the thrown error. -/
def inputOnField (p : FieldLocatorCounts) (fieldName textInput : JStr) :
    List Strategy × Except JStr (Strategy × JStr) :=
  if p.roleCount > 0 then
    ([.role], .ok (.role, textInput))
  else if p.labelCount > 0 then
    ([.role, .label], .ok (.label, textInput))
  else if p.placeholderCount > 0 then
    ([.role, .label, .placeholder], .ok (.placeholder, textInput))
  else if p.xpathCount > 0 then
    ([.role, .label, .placeholder, .xpath], .ok (.xpath, textInput))
  else
    ([.role, .label, .placeholder, .xpath], .error (inputFieldNotFoundMsg fieldName))

/-- The error text thrown by `inputOnTextField` and `inputMultiValues` when the
field locator never becomes visible. -/
def fieldNotVisibleMsg (fieldName errMsg : JStr) : JStr :=
  str "The field \x22" ++ fieldName ++ str "\x22 is NOT visible: ->> " ++ errMsg

/-- The guard-clause error text of `inputMultiValues`. -/
def noValidValuesMsg (fieldName : JStr) : JStr :=
  str "No valid values provided for \x22" ++ fieldName ++
    str "\x22. Expected at least one value, e.g. [\x27Maths\x27, \x27English\x27]"

/-- Page interactions performed by `inputMultiValues`, in order. -/
inductive PageAction where
  | queryLocator (fieldName : JStr)
  | typeText (v : JStr)
  | waitMs (n : Nat)
  | pressEnter
deriving DecidableEq

/-- `CommonUserActionsPage.inputMultiValues`: guard clause first (`values`
empty, or every entry trims to the empty string, throws before any locator is
built); then the visibility wait on the field locator; then for each value a
`type`, a 500ms wait and an `Enter` press.  The first component is the trace
of page interactions. -/
def inputMultiValues (fieldName : JStr) (values : List JStr)
    (fieldVisible : Bool) (errMsg : JStr) : List PageAction × Except JStr Unit :=
  if values.isEmpty || values.all (fun v => jsTrim v = []) then
    ([], .error (noValidValuesMsg fieldName))
  else if fieldVisible then
    (PageAction.queryLocator fieldName ::
      (values.map (fun v => [PageAction.typeText v, PageAction.waitMs 500,
         PageAction.pressEnter])).flatten,
     .ok ())
  else
    ([PageAction.queryLocator fieldName], .error (fieldNotVisibleMsg fieldName errMsg))

/-- The error text thrown by `WebTablePage.getTableColumnIndexByName` and by
`WebTablePage.getCellByRowAndColumn`. -/
def tableColumnNotFoundMsg (columnName : JStr) : JStr :=
  str "Column with name \x22" ++ columnName ++ str "\x22 not found."

/-- `WebTablePage.getTableColumnIndexByName`: scan the header cells in order,
trim each, compare lower-cased for equality with the lower-cased column name,
and return `i + 1` at the first hit; throw when no header is equal. -/
def getTableColumnIndexByName (headers : List JStr) (columnName : JStr) :
    Except JStr Nat :=
  match findIdxP (fun h => jsToLower (jsTrim h) == jsToLower columnName) headers with
  | some i => .ok (i + 1)
  | none => .error (tableColumnNotFoundMsg columnName)

theorem getRowLoop_found (s : PageState) (rowText : JStr) (mode : MatchMode)
    (timeout fuel elapsed i : Nat) (hf : 0 < fuel) (he : elapsed < timeout)
    (hi : findIdxP (rowMatches rowText mode) s.rows = some i) :
    getRowLoop s rowText mode timeout fuel elapsed = (.ok i, []) := by
  cases fuel with
  | zero => omega
  | succ f => simp [getRowLoop, he, hi]

theorem getRowLoop_notFound (s : PageState) (rowText : JStr) (mode : MatchMode)
    (timeout : Nat) (hnone : findIdxP (rowMatches rowText mode) s.rows = none) :
    ∀ fuel elapsed, timeout - elapsed ≤ 300 * fuel →
      ∃ k, getRowLoop s rowText mode timeout fuel elapsed
          = (.error (rowNotFoundMsg rowText timeout s.rows), List.replicate k 300) ∧
        timeout - elapsed ≤ 300 * k ∧ 300 * k < timeout - elapsed + 300 := by
  intro fuel
  induction fuel with
  | zero =>
    intro elapsed hle
    exact ⟨0, rfl, by omega, by omega⟩
  | succ f ih =>
    intro elapsed hle
    by_cases he : elapsed < timeout
    · obtain ⟨k, hk, hk1, hk2⟩ := ih (elapsed + 300) (by omega)
      refine ⟨k + 1, ?_, by omega, by omega⟩
      simp [getRowLoop, he, hnone, hk, List.replicate_succ]
    · exact ⟨0, by simp [getRowLoop, he], by omega, by omega⟩

theorem getRowLoop_congr (s sAlt : PageState) (hrows : s.rows = sAlt.rows)
    (rowText : JStr) (mode : MatchMode) (timeout : Nat) :
    ∀ fuel elapsed, getRowLoop s rowText mode timeout fuel elapsed
      = getRowLoop sAlt rowText mode timeout fuel elapsed := by
  intro fuel
  induction fuel with
  | zero =>
    intro elapsed
    simp [getRowLoop, rowNotFoundMsg, hrows]
  | succ f ih =>
    intro elapsed
    simp only [getRowLoop, rowNotFoundMsg, hrows, ih]

theorem getCellValue_resolved (s : PageState) (rowText columnName : JStr)
    (ri ci : Nat) (r : RowData) (t : Option JStr)
    (hrow : FirstMatchAt (rowMatches rowText .part) s.rows ri)
    (hcol : FirstMatchAt (fun h => matchText h columnName .part) (getHeaders s) ci)
    (hr : s.rows[ri]? = some r) (ht : r.cells[ci]? = some t) :
    getCellValue s rowText columnName = .ok (textOrNull t) := by
  have h1 : (getRow s rowText none (some MatchMode.part)).1 = .ok ri := by
    rw [getRow]
    simp only [Option.getD_some, Option.getD_none]
    rw [getRowLoop_found s rowText .part 5000 5000 0 ri (by omega) (by omega)
      (findIdxP_eq_some_iff.mpr hrow)]
  have h2 : getColumnIndex s columnName .part = .ok ci := by
    rw [getColumnIndex, findIdxP_eq_some_iff.mpr hcol]
  rw [getCellValue]
  simp only [Option.getD_none, h1, h2, hr, Option.some_bind, ht]

/-- Claim C2: for all strings `a` and `b`, `match(a, b, 'exact')` holds iff
`lowercase(trim(a))` equals `lowercase(trim(b))`, and `match(a, b, 'partial')`
holds iff `lowercase(trim(a))` contains `lowercase(trim(b))` as a substring;
in particular `'partial'` is not symmetric (the candidate must contain the
query, not vice versa). -/
theorem matchText_spec :
    (∀ a b : JStr, matchText a b .exact = true ↔
      jsToLower (jsTrim a) = jsToLower (jsTrim b)) ∧
    (∀ a b : JStr, matchText a b .part = true ↔
      jsToLower (jsTrim b) <:+: jsToLower (jsTrim a)) ∧
    matchText (str "Alice Smith") (str "alice") .part = true ∧
    matchText (str "alice") (str "Alice Smith") .part = false := by
  refine ⟨?_, ?_, by decide, by decide⟩
  · intro a b
    simp only [matchText, normalize, jsToLower_jsTrim_comm, beq_iff_eq]
  · intro a b
    simp only [matchText, normalize, jsToLower_jsTrim_comm, jsIncludes_iff]

/-- Claim C3: `getColumnIndex(columnName, mode)` returns the smallest 0-based
index whose (trimmed) header matches `columnName` under `mode` (default
`'partial'`), and throws an error containing `columnName` and the full list of
available headers exactly when no header matches. -/
theorem getColumnIndex_spec :
    ∀ (s : PageState) (columnName : JStr) (mode : MatchMode),
      (∀ i, getColumnIndex s columnName mode = .ok i ↔
        FirstMatchAt (fun h => matchText h columnName mode) (getHeaders s) i) ∧
      (getColumnIndex s columnName mode
          = .error (columnNotFoundMsg columnName (getHeaders s)) ↔
        ∀ h ∈ getHeaders s, matchText h columnName mode = false) ∧
      (∀ e, getColumnIndex s columnName mode = .error e →
        e = columnNotFoundMsg columnName (getHeaders s)) ∧
      columnName <:+: columnNotFoundMsg columnName (getHeaders s) ∧
      List.intercalate (str ", ") (getHeaders s)
        <:+: columnNotFoundMsg columnName (getHeaders s) ∧
      getColumnIndex s columnName = getColumnIndex s columnName .part := by
  intro s columnName mode
  refine ⟨?_, ?_, ?_, ?_, ?_, rfl⟩
  · intro i
    rw [← findIdxP_eq_some_iff]
    unfold getColumnIndex
    cases hf : findIdxP (fun h => matchText h columnName mode) (getHeaders s) <;> simp
  · rw [← findIdxP_eq_none_iff]
    unfold getColumnIndex
    cases hf : findIdxP (fun h => matchText h columnName mode) (getHeaders s) <;> simp
  · intro e
    unfold getColumnIndex
    cases hf : findIdxP (fun h => matchText h columnName mode) (getHeaders s) <;> simp
    intro he
    exact he.symm
  · exact ⟨str "Column \x22", str "\x22 not found.\nAvailable: "
      ++ List.intercalate (str ", ") (getHeaders s),
      by simp [columnNotFoundMsg, List.append_assoc]⟩
  · exact ⟨str "Column \x22" ++ columnName ++ str "\x22 not found.\nAvailable: ", [],
      by simp [columnNotFoundMsg, List.append_assoc]⟩

/-- Claim C4: `getRow` is a polling loop with a fixed 300ms sleep between full
scans, bounded by a wall-clock timeout defaulting to 5000ms; it terminates on
every input (it is a total function of the model), either returning the first
row whose inner text matches `rowText` or, once the timeout elapses with no
match, throwing an error naming `rowText` and the timeout. -/
theorem getRow_spec :
    ∀ (s : PageState) (rowText : JStr) (timeout? : Option Nat)
      (mode? : Option MatchMode),
      (getRow s rowText none mode?
          = getRowLoop s rowText (mode?.getD .part) 5000 5000 0) ∧
      (∀ i, 0 < timeout?.getD 5000 →
        FirstMatchAt (rowMatches rowText (mode?.getD .part)) s.rows i →
        getRow s rowText timeout? mode? = (.ok i, [])) ∧
      ((∀ r ∈ s.rows, rowMatches rowText (mode?.getD .part) r = false) →
        ∃ k, getRow s rowText timeout? mode?
            = (.error (rowNotFoundMsg rowText (timeout?.getD 5000) s.rows),
               List.replicate k 300) ∧
          timeout?.getD 5000 ≤ 300 * k ∧ 300 * k < timeout?.getD 5000 + 300) ∧
      rowText <:+: rowNotFoundMsg rowText (timeout?.getD 5000) s.rows ∧
      natStr (timeout?.getD 5000) <:+: rowNotFoundMsg rowText (timeout?.getD 5000) s.rows := by
  intro s rowText timeout? mode?
  refine ⟨rfl, ?_, ?_, ?_, ?_⟩
  · intro i hpos hfirst
    rw [getRow]
    exact getRowLoop_found s rowText (mode?.getD .part) (timeout?.getD 5000)
      (timeout?.getD 5000) 0 i hpos hpos (findIdxP_eq_some_iff.mpr hfirst)
  · intro hnone
    obtain ⟨k, hk, hk1, hk2⟩ := getRowLoop_notFound s rowText (mode?.getD .part)
      (timeout?.getD 5000) (findIdxP_eq_none_iff.mpr hnone)
      (timeout?.getD 5000) 0 (by omega)
    exact ⟨k, hk, by omega, by omega⟩
  · exact ⟨str "Row \x22", str "\x22 not found after " ++ natStr (timeout?.getD 5000)
      ++ str "ms\nAvailable:\n" ++ List.intercalate (str "\n") (s.rows.map RowData.innerText),
      by simp [rowNotFoundMsg, List.append_assoc]⟩
  · exact ⟨str "Row \x22" ++ rowText ++ str "\x22 not found after ",
      str "ms\nAvailable:\n" ++ List.intercalate (str "\n") (s.rows.map RowData.innerText),
      by simp [rowNotFoundMsg, List.append_assoc]⟩

/-- Witness for `getColumnIndex_spec`: on a page whose single header is
`Email`, the column `email` resolves to index 0. -/
theorem getColumnIndex_spec_witness :
    getColumnIndex ⟨[str "Email"], [], 0⟩ (str "email") MatchMode.part = .ok 0 :=
  ((getColumnIndex_spec ⟨[str "Email"], [], 0⟩ (str "email") .part).1 0).mpr
    ⟨[], jsTrim (str "Email"), [], rfl, rfl, by decide, by simp⟩

/-- Witness for `getRow_spec`: with default options the row `bob` is found at
index 0 on a concrete page. -/
theorem getRow_spec_witness :
    getRow ⟨[str "H"], [⟨str "bob", [some (str "1")]⟩], 0⟩ (str "bob") none none
      = (.ok 0, []) :=
  (getRow_spec ⟨[str "H"], [⟨str "bob", [some (str "1")]⟩], 0⟩
      (str "bob") none none).2.1 0 (by decide)
    ⟨[], ⟨str "bob", [some (str "1")]⟩, [], rfl, rfl, by decide, by simp⟩

/-- Claim C1 counterexample: on a fixed page whose resolved cell holds only
whitespace, `getCellValue` returns `null`, which is not the trimmed text of
that cell (the empty string) — the claim as stated fails there. -/
theorem getCellValue_whitespace_counterexample :
    getCellValue ⟨[str "Name", str "Age"],
        [⟨str "alice 30", [some (str "alice"), some (str "   ")]⟩], 0⟩
      (str "alice") (str "Age") = .ok none ∧
    (Except.ok (some (jsTrim (str "   "))) : Except JStr (Option JStr)) ≠ .ok none := by
  constructor
  · rfl
  · simp

/-- Claim C1 (amended): table cell resolution is deterministic — for every
fixed rendered page state (fixed header and row content) the result of
`getCellValue` is a function of that content alone, and it is the trimmed text
of the cell at the first row matching `rowText` and the first header matching
`columnName` when that text is present and trims to a non-empty string, and
`null` otherwise (`textOrNull`). -/
theorem getCellValue_deterministic :
    ∀ (s sAlt : PageState) (rowText columnName : JStr),
      (s.headers = sAlt.headers → s.rows = sAlt.rows →
        getCellValue s rowText columnName = getCellValue sAlt rowText columnName) ∧
      (∀ (ri ci : Nat) (r : RowData) (t : Option JStr),
        FirstMatchAt (rowMatches rowText .part) s.rows ri →
        FirstMatchAt (fun h => matchText h columnName .part) (getHeaders s) ci →
        s.rows[ri]? = some r → r.cells[ci]? = some t →
        getCellValue s rowText columnName = .ok (textOrNull t)) := by
  intro s sAlt rowText columnName
  constructor
  · intro hh hr
    unfold getCellValue getRow getColumnIndex getHeaders
    rw [getRowLoop_congr s sAlt hr, hh, hr]
  · intro ri ci r t hrow hcol hr ht
    exact getCellValue_resolved s rowText columnName ri ci r t hrow hcol hr ht

/-- Witness for `getCellValue_deterministic`: on a concrete page the cell at
row `alice`, column `Age` evaluates to the trimmed text `30`. -/
theorem getCellValue_deterministic_witness :
    getCellValue ⟨[str "Age"], [⟨str "alice", [some (str " 30 ")]⟩], 5⟩
      (str "alice") (str "Age") = .ok (some (str "30")) := by
  rw [(getCellValue_deterministic ⟨[str "Age"], [⟨str "alice", [some (str " 30 ")]⟩], 5⟩
      ⟨[str "Age"], [⟨str "alice", [some (str " 30 ")]⟩], 5⟩ (str "alice") (str "Age")).2
      0 0 ⟨str "alice", [some (str " 30 ")]⟩ (some (str " 30 "))
      ⟨[], ⟨str "alice", [some (str " 30 ")]⟩, [], rfl, rfl, by decide, by simp⟩
      ⟨[], jsTrim (str "Age"), [], rfl, rfl, by decide, by simp⟩ rfl rfl]
  rfl

/-- Claim C8: `getCellValue` returns `null` exactly when the resolved cell's
text content is absent or trims to the empty string, and otherwise returns the
non-empty trimmed text; its result is never an untrimmed or empty string. -/
theorem getCellValue_null_spec :
    ∀ (s : PageState) (rowText columnName : JStr) (ri ci : Nat) (r : RowData)
      (t : Option JStr),
      FirstMatchAt (rowMatches rowText .part) s.rows ri →
      FirstMatchAt (fun h => matchText h columnName .part) (getHeaders s) ci →
      s.rows[ri]? = some r → r.cells[ci]? = some t →
      getCellValue s rowText columnName = .ok (textOrNull t) ∧
      (textOrNull t = none ↔ t = none ∨ ∃ u, t = some u ∧ jsTrim u = []) ∧
      (∀ w, textOrNull t = some w →
        (∃ u, t = some u ∧ w = jsTrim u) ∧ w ≠ [] ∧ jsTrim w = w) := by
  intro s rowText columnName ri ci r t hrow hcol hr ht
  refine ⟨getCellValue_resolved s rowText columnName ri ci r t hrow hcol hr ht, ?_, ?_⟩
  · cases t with
    | none => simp [textOrNull]
    | some u =>
      by_cases hu : jsTrim u = []
      · simp [textOrNull, hu]
      · simp [textOrNull, hu]
  · intro w hw
    cases t with
    | none => simp [textOrNull] at hw
    | some u =>
      by_cases hu : jsTrim u = []
      · rw [textOrNull, if_pos hu] at hw
        exact absurd hw (by simp)
      · rw [textOrNull, if_neg hu] at hw
        have hwu : w = jsTrim u := by injection hw.symm
        subst hwu
        exact ⟨⟨u, rfl, rfl⟩, hu, jsTrim_idem u⟩

/-- Witness for `getCellValue_null_spec`: a whitespace-only cell yields `null`. -/
theorem getCellValue_null_spec_witness :
    getCellValue ⟨[str "Age"], [⟨str "bob", [some (str "   ")]⟩], 9⟩
      (str "bob") (str "Age") = .ok none := by
  have h := getCellValue_null_spec ⟨[str "Age"], [⟨str "bob", [some (str "   ")]⟩], 9⟩
    (str "bob") (str "Age") 0 0 ⟨str "bob", [some (str "   ")]⟩ (some (str "   "))
    ⟨[], ⟨str "bob", [some (str "   ")]⟩, [], rfl, rfl, by decide, by simp⟩
    ⟨[], jsTrim (str "Age"), [], rfl, rfl, by decide, by simp⟩ rfl rfl
  rw [h.1]
  rfl

/-- Claim C6: `inputOnField` tries role-textbox, label, placeholder, then
relative XPath in that fixed order, fills via the first strategy with a
positive locator count and performs no further strategy, and throws an error
naming the field exactly when all four counts are zero. -/
theorem inputOnField_spec :
    ∀ (p : FieldLocatorCounts) (fieldName textInput : JStr),
      (0 < p.roleCount →
        inputOnField p fieldName textInput = ([.role], .ok (.role, textInput))) ∧
      (p.roleCount = 0 → 0 < p.labelCount →
        inputOnField p fieldName textInput = ([.role, .label], .ok (.label, textInput))) ∧
      (p.roleCount = 0 → p.labelCount = 0 → 0 < p.placeholderCount →
        inputOnField p fieldName textInput
          = ([.role, .label, .placeholder], .ok (.placeholder, textInput))) ∧
      (p.roleCount = 0 → p.labelCount = 0 → p.placeholderCount = 0 → 0 < p.xpathCount →
        inputOnField p fieldName textInput
          = ([.role, .label, .placeholder, .xpath], .ok (.xpath, textInput))) ∧
      ((inputOnField p fieldName textInput).2 = .error (inputFieldNotFoundMsg fieldName) ↔
        p.roleCount = 0 ∧ p.labelCount = 0 ∧ p.placeholderCount = 0 ∧ p.xpathCount = 0) ∧
      fieldName <:+: inputFieldNotFoundMsg fieldName := by
  intro p fieldName textInput
  refine ⟨?_, ?_, ?_, ?_, ?_, ?_⟩
  · intro h1
    simp [inputOnField, h1]
  · intro h1 h2
    simp [inputOnField, h1, h2]
  · intro h1 h2 h3
    simp [inputOnField, h1, h2, h3]
  · intro h1 h2 h3 h4
    simp [inputOnField, h1, h2, h3, h4]
  · constructor
    · intro h
      have h1 : p.roleCount = 0 := by
        by_contra hc
        simp [inputOnField, Nat.pos_of_ne_zero hc] at h
      have h2 : p.labelCount = 0 := by
        by_contra hc
        simp [inputOnField, h1, Nat.pos_of_ne_zero hc] at h
      have h3 : p.placeholderCount = 0 := by
        by_contra hc
        simp [inputOnField, h1, h2, Nat.pos_of_ne_zero hc] at h
      have h4 : p.xpathCount = 0 := by
        by_contra hc
        simp [inputOnField, h1, h2, h3, Nat.pos_of_ne_zero hc] at h
      exact ⟨h1, h2, h3, h4⟩
    · rintro ⟨h1, h2, h3, h4⟩
      simp [inputOnField, h1, h2, h3, h4]
  · exact ⟨str "Input field \x22",
      str "\x22 not found using role, label, placeholder, or relative XPath.",
      by simp [inputFieldNotFoundMsg, List.append_assoc]⟩

/-- Witness for `inputOnField_spec`: with zero role matches and two label
matches the field is filled via the label strategy and nothing later. -/
theorem inputOnField_spec_witness :
    inputOnField ⟨0, 2, 0, 0⟩ (str "Email") (str "a@b.c")
      = ([.role, .label], .ok (.label, str "a@b.c")) :=
  (inputOnField_spec ⟨0, 2, 0, 0⟩ (str "Email") (str "a@b.c")).2.1 rfl (by decide)

/-- Claim C7: the helper caches nothing and mutates nothing: `WebTableHelper`
holds only the page handle, no operation reassigns it, and a later
`getCellValue` call reads the then-current page render (headers included)
rather than anything from an earlier call. -/
theorem webTableHelper_stateless :
    ∀ (h hAlt : WebTableHelper) (s s₁ s₂ : PageState)
      (rowText columnName r₁ c₁ r₂ c₂ : JStr) (mode : MatchMode),
      (getCellValueS h s rowText columnName).2 = h ∧
      (h.page = hAlt.page → h = hAlt) ∧
      twoGetCellValueCalls h s₁ s₂ r₁ c₁ r₂ c₂ = (getCellValue s₂ r₂ c₂, h) ∧
      (s₁.headers = s₂.headers →
        getColumnIndex s₁ columnName mode = getColumnIndex s₂ columnName mode) := by
  intro h hAlt s s₁ s₂ rowText columnName r₁ c₁ r₂ c₂ mode
  refine ⟨rfl, ?_, rfl, ?_⟩
  · intro hp
    cases h
    cases hAlt
    simpa using hp
  · intro hh
    unfold getColumnIndex getHeaders
    rw [hh]

/-- Witness for `webTableHelper_stateless`: the column lookup depends only on
the current headers, not on rows, page handle, or other page content. -/
theorem webTableHelper_stateless_witness :
    getColumnIndex ⟨[str "A"], [], 0⟩ (str "a") MatchMode.part
      = getColumnIndex ⟨[str "A"], [⟨str "r", []⟩], 7⟩ (str "a") MatchMode.part :=
  (webTableHelper_stateless ⟨0⟩ ⟨0⟩ ⟨[], [], 0⟩ ⟨[str "A"], [], 0⟩
      ⟨[str "A"], [⟨str "r", []⟩], 7⟩ [] (str "a") [] [] [] [] .part).2.2.2 rfl

/-- Claim C9: `WebTablePage.getTableColumnIndexByName` returns the 1-based
index `i + 1` of the first header exactly equal (trimmed, case-insensitive)
to the column name and throws when none is, even when a partial match exists;
`WebTableHelper.getColumnIndex` by contrast is 0-based and defaults to
partial matching. -/
theorem getTableColumnIndexByName_spec :
    ∀ (headers : List JStr) (columnName : JStr),
      (∀ i, getTableColumnIndexByName headers columnName = .ok i ↔
        ∃ j, i = j + 1 ∧
          FirstMatchAt (fun h => jsToLower (jsTrim h) == jsToLower columnName) headers j) ∧
      (getTableColumnIndexByName headers columnName
          = .error (tableColumnNotFoundMsg columnName) ↔
        ∀ h ∈ headers, (jsToLower (jsTrim h) == jsToLower columnName) = false) ∧
      (getTableColumnIndexByName [str "First Name"] (str "Name")
          = .error (tableColumnNotFoundMsg (str "Name")) ∧
        getColumnIndex ⟨[str "First Name"], [], 0⟩ (str "Name") = .ok 0) ∧
      (getTableColumnIndexByName [str "Email"] (str "email") = .ok 1 ∧
        getColumnIndex ⟨[str "Email"], [], 0⟩ (str "email") = .ok 0) := by
  intro headers columnName
  refine ⟨?_, ?_, ⟨rfl, rfl⟩, ⟨rfl, rfl⟩⟩
  · intro i
    unfold getTableColumnIndexByName
    cases hf : findIdxP (fun h => jsToLower (jsTrim h) == jsToLower columnName) headers with
    | some j =>
      simp only [Except.ok.injEq]
      constructor
      · intro hji
        exact ⟨j, hji.symm, findIdxP_eq_some_iff.mp hf⟩
      · rintro ⟨j2, rfl, hfm⟩
        have hsome := findIdxP_eq_some_iff.mpr hfm
        rw [hf] at hsome
        injection hsome with hjj
        rw [hjj]
    | none =>
      constructor
      · intro hcontra
        exact absurd hcontra (by simp)
      · rintro ⟨j, rfl, hfm⟩
        have hsome := findIdxP_eq_some_iff.mpr hfm
        rw [hf] at hsome
        exact absurd hsome (by simp)
  · rw [← findIdxP_eq_none_iff]
    unfold getTableColumnIndexByName
    cases hf : findIdxP (fun h => jsToLower (jsTrim h) == jsToLower columnName) headers <;>
      simp

/-- Claim C10: `inputMultiValues` throws before any page interaction whenever
the values list is empty or every entry trims to the empty string; on that
path the interaction trace is empty (no locator queried, no field touched)
and the error names the field. -/
theorem inputMultiValues_guard :
    ∀ (fieldName : JStr) (values : List JStr) (fieldVisible : Bool) (errMsg : JStr),
      (values = [] ∨ ∀ v ∈ values, jsTrim v = []) →
      inputMultiValues fieldName values fieldVisible errMsg
        = ([], .error (noValidValuesMsg fieldName)) ∧
      fieldName <:+: noValidValuesMsg fieldName := by
  intro fieldName values fieldVisible errMsg hguard
  constructor
  · have hcond : (values.isEmpty || values.all (fun v => jsTrim v = [])) = true := by
      rcases hguard with rfl | hall
      · simp
      · simp only [Bool.or_eq_true, List.all_eq_true, decide_eq_true_eq]
        exact Or.inr hall
    rw [inputMultiValues, if_pos hcond]
  · exact ⟨str "No valid values provided for \x22",
      str "\x22. Expected at least one value, e.g. [\x27Maths\x27, \x27English\x27]",
      by simp [noValidValuesMsg, List.append_assoc]⟩

/-- Witness for `inputMultiValues_guard`: a list whose single entry is
whitespace triggers the guard with an empty interaction trace. -/
theorem inputMultiValues_guard_witness :
    inputMultiValues (str "Subjects") [str "  "] true (str "e")
      = ([], .error (noValidValuesMsg (str "Subjects"))) :=
  (inputMultiValues_guard (str "Subjects") [str "  "] true (str "e")
    (Or.inr (by decide))).1

end PlaywrightTs
